import Mathlib

/-!
Verification of the docx merger application (`merge_app.py`).

The program's two pieces are embedded shallowly:
* the Merge Engine `merge_docx_files`, which opens each source document,
  appends them in caller order with a page break between consecutive
  documents, saves the result and returns a message string;
* the Shell `start_merge_process`, which normalizes the output filename,
  checks/creates directories, enumerates and sorts the eligible files of the
  input folder, invokes the engine and classifies its message for display.

Python strings are modelled as lists of characters, documents as lists of
body blocks, and the filesystem as finite maps from paths to contents.
-/

namespace DocxMerger

/-- A Python string, modelled as its list of characters. -/
abbrev PyStr := List Char

/-- Python `str.lower()`. -/
def pyLower (s : PyStr) : PyStr := s.map Char.toLower

/-- Python `s.endswith(t)`. -/
def pyEndsWith (s t : PyStr) : Bool := t.isSuffixOf s

/-- The recognized extension `".docx"` tested by the program. -/
def dotDocx : PyStr := ".docx".data

/-- A block-level item of a document body: ordinary content, or the explicit
page break that `add_page_break` inserts. -/
inductive Block where
  | content (s : PyStr)
  | pageBreak
deriving DecidableEq

/-- A document body is the ordered list of its blocks. -/
abbrev Doc := List Block

/-- The documents the underlying library can open: a finite map from paths to
parseable document bodies. A path outside the map makes `Document(path)`
raise. -/
abbrev DocFS := List (PyStr × Doc)

/-- `Document(path)`: `none` models the library raising an exception. -/
def openDoc (fs : DocFS) (p : PyStr) : Option Doc := fs.lookup p

/-- The diagnostic the document library raises when a path cannot be opened.
Modelled on python-docx's `PackageNotFoundError`, whose stringification names
the offending path (`"Package not found at <path>"`). -/
def openErr (p : PyStr) : PyStr := "Package not found at ".data ++ p

/-- Message returned when the source list is empty (line 31). -/
def errEmpty : PyStr := "错误：没有找到要合并的 .docx 文件。".data

/-- Message of the second guard (line 33), `len(source_files_list) < 1`. -/
def errAtLeastOne : PyStr := "错误：至少需要一个文件才能执行操作。".data

/-- Success message (line 51): count of merged documents and target path. -/
def successMsg (n : Nat) (target : PyStr) : PyStr :=
  "成功：".data ++ (toString n).data ++ " 个文档已合并到\n".data ++ target

/-- Failure message (line 53): the stringified exception appended to a fixed
Chinese header. -/
def mergeErrMsg (e : PyStr) : PyStr := "合并过程中发生错误：\n".data ++ e

/-- Outcome of one engine invocation: the save event (target path and saved
content), if any, together with the returned message string. -/
structure MergeOutcome where
  written : Option (PyStr × Doc)
  message : PyStr
deriving DecidableEq

/-- The loop of lines 45-48: for each remaining source path, append the
page-break document's content and then the freshly opened document's content
to the accumulating composer document; a failed open raises. -/
def appendLoop (fs : DocFS) : List PyStr → Doc → Except PyStr Doc
  | [], acc => Except.ok acc
  | p :: rest, acc =>
    match openDoc fs p with
    | none => Except.error (openErr p)
    | some d => appendLoop fs rest (acc ++ Block.pageBreak :: d)

/-- The Merge Engine, `merge_docx_files(source_files_list, target_file_path)`
of lines 18-53: two guards, then open the first document as the composer
base, append each remaining document preceded by a page break, save to the
target and return the success message; any exception is caught and converted
to a failure message, with nothing written. -/
def merge_docx_files (fs : DocFS) (source_files_list : List PyStr)
    (target_file_path : PyStr) : MergeOutcome :=
  if source_files_list.isEmpty then MergeOutcome.mk none errEmpty
  else if source_files_list.length < 1 then MergeOutcome.mk none errAtLeastOne
  else
    match source_files_list with
    | [] => MergeOutcome.mk none (mergeErrMsg "list index out of range".data)
    | first :: rest =>
      match openDoc fs first with
      | none => MergeOutcome.mk none (mergeErrMsg (openErr first))
      | some master =>
        match appendLoop fs rest master with
        | Except.error e => MergeOutcome.mk none (mergeErrMsg e)
        | Except.ok merged =>
          MergeOutcome.mk (some (target_file_path, merged))
            (successMsg source_files_list.length target_file_path)

/-- Merged content as the specification describes it: the concatenation of
all documents' content in list order, with one page break immediately before
each document after the first. -/
def specMerge : List Doc → Doc
  | [] => []
  | d :: ds => d ++ ds.flatMap fun x => Block.pageBreak :: x

/-- Python's `<` comparison on strings: lexicographic by character. `sorted`
orders its output nondecreasingly under this comparison, modelled here as the
corresponding `≤` test. -/
def pyStrLe : PyStr → PyStr → Bool
  | [], _ => true
  | _ :: _, [] => false
  | a :: s, b :: t => if a < b then true else if b < a then false else pyStrLe s t

/-- `os.path.join(dir, name)` for a directory and a relative filename. -/
def pathJoin (d name : PyStr) : PyStr := d ++ '/' :: name

/-- Filename normalization of lines 120-121: append `".docx"` unless the
name already ends with it case-insensitively. -/
def normalizeFilename (s : PyStr) : PyStr :=
  if pyEndsWith (pyLower s) dotDocx then s else s ++ dotDocx

/-- Source selection of lines 134-141: sort the directory listing, keep the
entries ending in `".docx"` case-insensitively, and join each with the input
folder path. -/
def selectSources (listing : List PyStr) (dir : PyStr) : List PyStr :=
  ((listing.mergeSort pyStrLe).filter fun n => pyEndsWith (pyLower n) dotDocx).map
    (pathJoin dir)

/-- The operating-system state visible to the Shell: the openable documents,
the existing directories, the directories `os.makedirs` could create, and
each directory's listing. -/
structure OSState where
  docfs : DocFS
  dirs : List PyStr
  creatable : List PyStr
  listings : List (PyStr × List PyStr)

/-- A dialog shown to the user: `messagebox.showinfo` or
`messagebox.showerror`, with title and message. -/
inductive Dialog where
  | info (title msg : PyStr)
  | error (title msg : PyStr)
deriving DecidableEq

/-- Outcome of one Shell invocation: the final dialog, whether the engine
was invoked, and the save event if one occurred. -/
structure ShellOutcome where
  dialog : Dialog
  mergeCalled : Bool
  written : Option (PyStr × Doc)
deriving DecidableEq

/-- The classification of lines 158-161: the result message is shown in the
success dialog exactly when it contains the substring `"成功"`, otherwise in
the error dialog. -/
def dialogFor (msg : PyStr) : Dialog :=
  if "成功".data <:+: msg then Dialog.info "合并完成".data msg
  else Dialog.error "合并失败".data msg

/-- The Shell, `start_merge_process` of lines 115-162: normalize the output
filename, require the input folder to exist, create the output folder when
missing (reporting failure without invoking the engine), enumerate and select
sources, report when none are eligible, otherwise invoke the engine on the
joined target path and classify its message. -/
def start_merge_process (os : OSState) (input_path output_path fname : PyStr) :
    ShellOutcome :=
  let output_filename := normalizeFilename fname
  if input_path ∉ os.dirs then
    ShellOutcome.mk
      (Dialog.error "错误".data ("输入文件夹不存在：\n".data ++ input_path)) false none
  else if output_path ∉ os.dirs ∧ output_path ∉ os.creatable then
    ShellOutcome.mk
      (Dialog.error "错误".data ("无法创建输出文件夹：\n".data ++ output_path)) false none
  else
    let source_files := selectSources ((os.listings.lookup input_path).getD []) input_path
    if source_files.isEmpty then
      ShellOutcome.mk
        (Dialog.info "提示".data "在输入文件夹中没有找到 .docx 文件。".data) false none
    else
      let target_file := pathJoin output_path output_filename
      let result := merge_docx_files os.docfs source_files target_file
      ShellOutcome.mk (dialogFor result.message) true result.written

end DocxMerger

namespace DocxMerger

/-- Helper: the append loop succeeds and produces the page-break-separated
concatenation whenever every remaining source opens. -/
theorem appendLoop_ok (fs : DocFS) (dmap : PyStr → Doc) :
    ∀ (srcs : List PyStr) (acc : Doc),
      (∀ p ∈ srcs, openDoc fs p = some (dmap p)) →
      appendLoop fs srcs acc =
        Except.ok (acc ++ (srcs.map dmap).flatMap fun d => Block.pageBreak :: d) := by
  intro srcs
  induction srcs with
  | nil => intro acc _; simp [appendLoop]
  | cons p rest ih =>
    intro acc h
    have hp : openDoc fs p = some (dmap p) := h p (List.mem_cons_self p rest)
    have hrest : ∀ q ∈ rest, openDoc fs q = some (dmap q) :=
      fun q hq => h q (List.mem_cons_of_mem p hq)
    simp only [appendLoop, hp]
    rw [ih (acc ++ Block.pageBreak :: dmap p) hrest]
    simp [List.flatMap_cons, List.append_assoc]

/-- Helper: the engine on a non-empty list reduces past its two guards. -/
theorem merge_cons (fs : DocFS) (first : PyStr) (rest : List PyStr) (target : PyStr) :
    merge_docx_files fs (first :: rest) target =
      match openDoc fs first with
      | none => MergeOutcome.mk none (mergeErrMsg (openErr first))
      | some master =>
        match appendLoop fs rest master with
        | Except.error e => MergeOutcome.mk none (mergeErrMsg e)
        | Except.ok merged =>
          MergeOutcome.mk (some (target, merged))
            (successMsg (rest.length + 1) target) := by
  simp [merge_docx_files]

/-- Helper: the engine's outcome when the first document fails to open. -/
theorem merge_cons_openFail (fs : DocFS) (first : PyStr) (rest : List PyStr)
    (target : PyStr) (hfail : openDoc fs first = none) :
    merge_docx_files fs (first :: rest) target =
      MergeOutcome.mk none (mergeErrMsg (openErr first)) := by
  rw [merge_cons, hfail]

/-- Helper: the engine's outcome when the first document opens but the append
loop raises. -/
theorem merge_cons_loopFail (fs : DocFS) (first : PyStr) (rest : List PyStr)
    (target : PyStr) (master : Doc) (e : PyStr)
    (hfirst : openDoc fs first = some master)
    (hl : appendLoop fs rest master = Except.error e) :
    merge_docx_files fs (first :: rest) target =
      MergeOutcome.mk none (mergeErrMsg e) := by
  rw [merge_cons, hfirst]
  show (match appendLoop fs rest master with
    | Except.error e => MergeOutcome.mk none (mergeErrMsg e)
    | Except.ok merged =>
      MergeOutcome.mk (some (target, merged))
        (successMsg (rest.length + 1) target)) = _
  rw [hl]

/-- Helper: the engine's outcome when every step succeeds. -/
theorem merge_cons_ok (fs : DocFS) (first : PyStr) (rest : List PyStr)
    (target : PyStr) (master merged : Doc)
    (hfirst : openDoc fs first = some master)
    (hl : appendLoop fs rest master = Except.ok merged) :
    merge_docx_files fs (first :: rest) target =
      MergeOutcome.mk (some (target, merged)) (successMsg (rest.length + 1) target) := by
  rw [merge_cons, hfirst]
  show (match appendLoop fs rest master with
    | Except.error e => MergeOutcome.mk none (mergeErrMsg e)
    | Except.ok merged =>
      MergeOutcome.mk (some (target, merged))
        (successMsg (rest.length + 1) target)) = _
  rw [hl]

/-- Helper: counting the page breaks contributed by the loop, when the
documents themselves contain none. -/
theorem count_pb_flatMap (ds : List Doc) (h : ∀ d ∈ ds, Block.pageBreak ∉ d) :
    (ds.flatMap fun d => Block.pageBreak :: d).count Block.pageBreak = ds.length := by
  induction ds with
  | nil => simp
  | cons e es ih =>
    have he : Block.pageBreak ∉ e := h e (List.mem_cons_self e es)
    have hes : ∀ d ∈ es, Block.pageBreak ∉ d :=
      fun d hd => h d (List.mem_cons_of_mem e hd)
    simp [List.flatMap_cons, List.count_append, List.count_eq_zero.mpr he, ih hes,
      Nat.add_comm]

/-- Helper: the spec-side merged content holds one page break per document
after the first, when the documents themselves contain none. -/
theorem specMerge_count (docs : List Doc) (h : ∀ d ∈ docs, Block.pageBreak ∉ d) :
    (specMerge docs).count Block.pageBreak = docs.length - 1 := by
  cases docs with
  | nil => simp [specMerge]
  | cons d ds =>
    have hd : Block.pageBreak ∉ d := h d (List.mem_cons_self d ds)
    have hds : ∀ x ∈ ds, Block.pageBreak ∉ x :=
      fun x hx => h x (List.mem_cons_of_mem d hx)
    simp [specMerge, List.count_append, List.count_eq_zero.mpr hd,
      count_pb_flatMap ds hds]

/-- Helper: on a non-empty list of openable documents the engine saves the
page-break-separated concatenation at the target and returns the success
message. -/
theorem merge_concat_core (fs : DocFS) (sources : List PyStr) (target : PyStr)
    (dmap : PyStr → Doc) (hne : sources ≠ [])
    (hopen : ∀ p ∈ sources, openDoc fs p = some (dmap p)) :
    (merge_docx_files fs sources target).written =
      some (target, specMerge (sources.map dmap)) ∧
    (merge_docx_files fs sources target).message
      = successMsg sources.length target := by
  match sources, hne with
  | first :: rest, _ =>
    have hfirst : openDoc fs first = some (dmap first) :=
      hopen first (List.mem_cons_self first rest)
    have hrest : ∀ q ∈ rest, openDoc fs q = some (dmap q) :=
      fun q hq => hopen q (List.mem_cons_of_mem first hq)
    have hloop := appendLoop_ok fs dmap rest (dmap first) hrest
    rw [merge_cons_ok fs first rest target (dmap first) _ hfirst hloop]
    exact ⟨by simp [specMerge], rfl⟩

/-- C1: on a non-empty list of openable documents, the engine saves exactly
one output at the target whose content is the page-break-separated
concatenation of all documents in caller-supplied order, returns the success
message, and (when the sources hold no page breaks of their own) the output
holds exactly N−1 page breaks; for a single-element list this is a copy with
zero inserted breaks, since `specMerge [d] = d`. -/
theorem merge_concatenates (fs : DocFS) (sources : List PyStr) (target : PyStr)
    (dmap : PyStr → Doc) (hne : sources ≠ [])
    (hopen : ∀ p ∈ sources, openDoc fs p = some (dmap p)) :
    (merge_docx_files fs sources target).written =
      some (target, specMerge (sources.map dmap)) ∧
    (merge_docx_files fs sources target).message = successMsg sources.length target ∧
    ((∀ p ∈ sources, Block.pageBreak ∉ dmap p) →
      (specMerge (sources.map dmap)).count Block.pageBreak = sources.length - 1) := by
  refine ⟨(merge_concat_core fs sources target dmap hne hopen).1,
    (merge_concat_core fs sources target dmap hne hopen).2, ?_⟩
  intro hnb
  have h2 : ∀ d ∈ sources.map dmap, Block.pageBreak ∉ d := by
    intro d hd
    obtain ⟨p, hp, rfl⟩ := List.mem_map.mp hd
    exact hnb p hp
  rw [specMerge_count _ h2, List.length_map]

/-- Witness filesystem holding two openable documents. -/
def wfs : DocFS :=
  [("a.docx".data, [Block.content "A".data]),
   ("b.docx".data, [Block.content "B".data])]

/-- Witness content map reading off `wfs`. -/
def wdmap : PyStr → Doc := fun p => ((wfs.lookup p).getD [])

/-- Witness for C1 at a concrete two-document merge. -/
theorem merge_concatenates_witness :
    (merge_docx_files wfs ["a.docx".data, "b.docx".data] "t.docx".data).written =
      some ("t.docx".data, specMerge (["a.docx".data, "b.docx".data].map wdmap)) ∧
    (merge_docx_files wfs ["a.docx".data, "b.docx".data] "t.docx".data).message =
      successMsg 2 "t.docx".data :=
  ⟨(merge_concatenates wfs _ "t.docx".data wdmap (by decide) (by decide)).1,
   (merge_concatenates wfs _ "t.docx".data wdmap (by decide) (by decide)).2.1⟩

/-- C3: on the empty source list the engine returns the empty-input failure
message and writes nothing to the filesystem. -/
theorem merge_empty_no_write (fs : DocFS) (target : PyStr) :
    merge_docx_files fs [] target = MergeOutcome.mk none errEmpty := rfl

/-- Helper: every failure message starts with the fixed Chinese header. -/
theorem mergeErrMsg_head (e : PyStr) : (mergeErrMsg e).head? = some '合' := rfl

/-- Helper: every success message starts with the success marker. -/
theorem successMsg_head (n : Nat) (t : PyStr) : (successMsg n t).head? = some '成' := rfl

/-- C10: the second guard of the engine is dead code: no input ever produces
its "at least one file" message, because the emptiness guard already returns
on every list of length zero. -/
theorem second_guard_unreachable (fs : DocFS) (sources : List PyStr) (target : PyStr) :
    (merge_docx_files fs sources target).message ≠ errAtLeastOne := by
  intro h
  cases sources with
  | nil =>
    have h0 : errEmpty = errAtLeastOne := h
    exact absurd h0 (by decide)
  | cons first rest =>
    cases ho : openDoc fs first with
    | none =>
      rw [merge_cons_openFail fs first rest target ho] at h
      have h1 := mergeErrMsg_head (openErr first)
      rw [show mergeErrMsg (openErr first) = errAtLeastOne from h] at h1
      exact absurd h1 (by decide)
    | some master =>
      cases hl : appendLoop fs rest master with
      | error e =>
        rw [merge_cons_loopFail fs first rest target master e ho hl] at h
        have h1 := mergeErrMsg_head e
        rw [show mergeErrMsg e = errAtLeastOne from h] at h1
        exact absurd h1 (by decide)
      | ok merged =>
        rw [merge_cons_ok fs first rest target master merged ho hl] at h
        have h1 := successMsg_head (rest.length + 1) target
        rw [show successMsg (rest.length + 1) target = errAtLeastOne from h] at h1
        exact absurd h1 (by decide)

/-- Witness for C10 at a concrete input. -/
theorem second_guard_unreachable_witness :
    (merge_docx_files [] [] "t.docx".data).message ≠ errAtLeastOne :=
  second_guard_unreachable [] [] "t.docx".data

/-- Helper: the append loop raises as soon as some remaining source cannot
be opened. -/
theorem appendLoop_fail (fs : DocFS) :
    ∀ (srcs : List PyStr) (acc : Doc) (p : PyStr), p ∈ srcs → openDoc fs p = none →
      ∃ e, appendLoop fs srcs acc = Except.error e := by
  intro srcs
  induction srcs with
  | nil => intro acc p hp _; cases hp
  | cons q rest ih =>
    intro acc p hp hfail
    cases hq : openDoc fs q with
    | none => exact ⟨openErr q, by simp [appendLoop, hq]⟩
    | some d =>
      have hpr : p ∈ rest := by
        cases List.mem_cons.mp hp with
        | inl h => subst h; rw [hq] at hfail; cases hfail
        | inr h => exact h
      obtain ⟨e, he⟩ := ih (acc ++ Block.pageBreak :: d) p hpr hfail
      exact ⟨e, by simp [appendLoop, hq, he]⟩

/-- C2: when some source path cannot be opened, the engine returns a failure
message and the save step never runs, so the target is neither created nor
overwritten. -/
theorem merge_unreadable_no_write (fs : DocFS) (sources : List PyStr)
    (target p : PyStr) (hp : p ∈ sources) (hfail : openDoc fs p = none) :
    (merge_docx_files fs sources target).written = none ∧
    ∃ e, (merge_docx_files fs sources target).message = mergeErrMsg e := by
  cases sources with
  | nil => cases hp
  | cons first rest =>
    cases ho : openDoc fs first with
    | none =>
      rw [merge_cons_openFail fs first rest target ho]
      exact ⟨rfl, openErr first, rfl⟩
    | some master =>
      have hpr : p ∈ rest := by
        cases List.mem_cons.mp hp with
        | inl h => subst h; rw [ho] at hfail; cases hfail
        | inr h => exact h
      obtain ⟨e, he⟩ := appendLoop_fail fs rest master p hpr hfail
      rw [merge_cons_loopFail fs first rest target master e ho he]
      exact ⟨rfl, e, rfl⟩

/-- Witness for C2: one readable and one unreadable source. -/
theorem merge_unreadable_no_write_witness :
    (merge_docx_files wfs ["a.docx".data, "missing.docx".data] "t.docx".data).written
      = none ∧
    ∃ e, (merge_docx_files wfs ["a.docx".data, "missing.docx".data]
      "t.docx".data).message = mergeErrMsg e :=
  merge_unreadable_no_write wfs ["a.docx".data, "missing.docx".data] "t.docx".data
    "missing.docx".data (by decide) (by decide)

/-- Helper: the append loop stops at the first unopenable source and raises
that source's diagnostic. -/
theorem appendLoop_firstFail (fs : DocFS) (p : PyStr) (post : List PyStr)
    (hp : openDoc fs p = none) :
    ∀ (pre : List PyStr) (acc : Doc), (∀ q ∈ pre, openDoc fs q ≠ none) →
      appendLoop fs (pre ++ p :: post) acc = Except.error (openErr p) := by
  intro pre
  induction pre with
  | nil => intro acc _; simp [appendLoop, hp]
  | cons q pre' ih =>
    intro acc hq
    cases hoq : openDoc fs q with
    | none => exact absurd hoq (hq q (List.mem_cons_self q pre'))
    | some d =>
      have hq' : ∀ r ∈ pre', openDoc fs r ≠ none :=
        fun r hr => hq r (List.mem_cons_of_mem q hr)
      simp [appendLoop, hoq, ih (acc ++ Block.pageBreak :: d) hq']

/-- C5: when the first unopenable source is `p` (every earlier source
opens), the engine's message is the fixed header plus the library
diagnostic for `p`, and both the diagnostic and the offending path occur
inside the message; nothing is written. -/
theorem merge_failure_names_offender (fs : DocFS) (pre post : List PyStr)
    (target p : PyStr) (hpre : ∀ q ∈ pre, openDoc fs q ≠ none)
    (hp : openDoc fs p = none) :
    (merge_docx_files fs (pre ++ p :: post) target).message
      = mergeErrMsg (openErr p) ∧
    openErr p <:+: (merge_docx_files fs (pre ++ p :: post) target).message ∧
    p <:+: (merge_docx_files fs (pre ++ p :: post) target).message ∧
    (merge_docx_files fs (pre ++ p :: post) target).written = none := by
  have hmerge : merge_docx_files fs (pre ++ p :: post) target =
      MergeOutcome.mk none (mergeErrMsg (openErr p)) := by
    cases pre with
    | nil => exact merge_cons_openFail fs p post target hp
    | cons q pre' =>
      cases hoq : openDoc fs q with
      | none => exact absurd hoq (hpre q (List.mem_cons_self q pre'))
      | some d =>
        have hpre' : ∀ r ∈ pre', openDoc fs r ≠ none :=
          fun r hr => hpre r (List.mem_cons_of_mem q hr)
        rw [List.cons_append]
        exact merge_cons_loopFail fs q (pre' ++ p :: post) target d (openErr p) hoq
          (appendLoop_firstFail fs p post hp pre' d hpre')
  rw [hmerge]
  refine ⟨rfl, ?_, ?_, rfl⟩
  · exact (List.suffix_append "合并过程中发生错误：\n".data (openErr p)).isInfix
  · exact ((List.suffix_append "Package not found at ".data p).trans
      (List.suffix_append "合并过程中发生错误：\n".data (openErr p))).isInfix

/-- Witness for C5: the second of two sources is unreadable. -/
theorem merge_failure_names_offender_witness :
    (merge_docx_files wfs (["a.docx".data] ++ "missing.docx".data :: [])
      "t.docx".data).message = mergeErrMsg (openErr "missing.docx".data) ∧
    "missing.docx".data <:+:
      (merge_docx_files wfs (["a.docx".data] ++ "missing.docx".data :: [])
        "t.docx".data).message :=
  ⟨(merge_failure_names_offender wfs ["a.docx".data] [] "t.docx".data
      "missing.docx".data (by decide) (by decide)).1,
   (merge_failure_names_offender wfs ["a.docx".data] [] "t.docx".data
      "missing.docx".data (by decide) (by decide)).2.2.1⟩

/-- Helper: lowercasing distributes over appending the extension, which is
already lowercase. -/
theorem pyLower_append_docx (s : PyStr) :
    pyLower (s ++ dotDocx) = pyLower s ++ dotDocx := by
  rw [pyLower, List.map_append]
  rfl

/-- C4: the normalized output filename always ends with the recognized
extension case-insensitively; a name already carrying it (case-insensitively)
is left unchanged, and a name without it gains exactly one copy, never a
duplicated extension. -/
theorem normalize_filename_exactly_one (s : PyStr) :
    pyEndsWith (pyLower (normalizeFilename s)) dotDocx = true ∧
    (pyEndsWith (pyLower s) dotDocx = true → normalizeFilename s = s) ∧
    (pyEndsWith (pyLower s) dotDocx = false →
      normalizeFilename s = s ++ dotDocx ∧
      pyEndsWith (pyLower (normalizeFilename s)) (dotDocx ++ dotDocx) = false) := by
  by_cases h : pyEndsWith (pyLower s) dotDocx = true
  · have hn : normalizeFilename s = s := by simp [normalizeFilename, h]
    refine ⟨by rw [hn]; exact h, fun _ => hn, fun hf => absurd h (by simp [hf])⟩
  · have hf : pyEndsWith (pyLower s) dotDocx = false := by
      cases hb : pyEndsWith (pyLower s) dotDocx
      · rfl
      · exact absurd hb h
    have hn : normalizeFilename s = s ++ dotDocx := by simp [normalizeFilename, hf]
    have hone : pyEndsWith (pyLower (s ++ dotDocx)) dotDocx = true := by
      rw [pyLower_append_docx, pyEndsWith, List.isSuffixOf_iff_suffix]
      exact List.suffix_append (pyLower s) dotDocx
    have hnodup : pyEndsWith (pyLower (s ++ dotDocx)) (dotDocx ++ dotDocx) = false := by
      rw [pyLower_append_docx, pyEndsWith]
      cases hb : (dotDocx ++ dotDocx).isSuffixOf (pyLower s ++ dotDocx)
      · rfl
      · exfalso
        obtain ⟨t, ht⟩ := List.isSuffixOf_iff_suffix.mp hb
        rw [← List.append_assoc] at ht
        have hts : t ++ dotDocx = pyLower s := List.append_cancel_right ht
        have : pyEndsWith (pyLower s) dotDocx = true := by
          rw [pyEndsWith, List.isSuffixOf_iff_suffix, ← hts]
          exact List.suffix_append t dotDocx
        exact h this
    exact ⟨by rw [hn]; exact hone, fun ht => absurd ht (by simp [hf]),
      fun _ => ⟨hn, by rw [hn]; exact hnodup⟩⟩

/-- Witness for C4: a name already carrying the extension in capitals is
kept, and a bare name gains exactly one extension. -/
theorem normalize_filename_witness :
    pyEndsWith (pyLower (normalizeFilename "Report.DOCX".data)) dotDocx = true ∧
    normalizeFilename "report".data = "report".data ++ dotDocx :=
  ⟨(normalize_filename_exactly_one "Report.DOCX".data).1,
   ((normalize_filename_exactly_one "report".data).2.2 (by decide)).1⟩

/-- Helper: the string comparison is total. -/
theorem pyStrLe_total (a : PyStr) : ∀ b, pyStrLe a b || pyStrLe b a := by
  induction a with
  | nil => intro b; simp [pyStrLe]
  | cons x s ih =>
    intro b
    cases b with
    | nil => simp [pyStrLe]
    | cons y t =>
      rcases lt_trichotomy x y with h | h | h
      · simp [pyStrLe, h]
      · subst h
        simpa [pyStrLe, lt_irrefl] using ih t
      · simp [pyStrLe, h, asymm h]

/-- Helper: the string comparison is transitive. -/
theorem pyStrLe_trans : ∀ (a b c : PyStr), pyStrLe a b = true → pyStrLe b c = true →
    pyStrLe a c = true
  | [], _, _, _, _ => by simp [pyStrLe]
  | _ :: _, [], _, hab, _ => by simp [pyStrLe] at hab
  | _ :: _, _ :: _, [], _, hbc => by simp [pyStrLe] at hbc
  | x :: s, y :: t, z :: u, hab, hbc => by
    simp only [pyStrLe] at hab hbc ⊢
    rcases lt_trichotomy x y with hxy | hxy | hxy
    · rcases lt_trichotomy y z with hyz | hyz | hyz
      · simp [lt_trans hxy hyz]
      · subst hyz; simp [hxy]
      · simp [asymm hyz, hyz] at hbc
    · subst hxy
      rcases lt_trichotomy x z with hxz | hxz | hxz
      · simp [hxz]
      · subst hxz
        simp only [lt_irrefl, if_false] at hab hbc ⊢
        exact pyStrLe_trans s t u hab hbc
      · simp [asymm hxz, hxz] at hbc
    · simp [asymm hxy, hxy] at hab

/-- Helper: the string comparison is antisymmetric. -/
theorem pyStrLe_antisymm : ∀ (a b : PyStr), pyStrLe a b = true → pyStrLe b a = true →
    a = b
  | [], [], _, _ => rfl
  | [], _ :: _, _, hba => by simp [pyStrLe] at hba
  | _ :: _, [], hab, _ => by simp [pyStrLe] at hab
  | x :: s, y :: t, hab, hba => by
    simp only [pyStrLe] at hab hba
    rcases lt_trichotomy x y with h | h | h
    · simp [asymm h, h] at hba
    · subst h
      simp only [lt_irrefl, if_false] at hab hba
      rw [pyStrLe_antisymm s t hab hba]
    · simp [asymm h, h] at hab

/-- Helper: comparison is invariant under a common leading segment. -/
theorem pyStrLe_append (x : PyStr) : ∀ a b, pyStrLe (x ++ a) (x ++ b) = pyStrLe a b := by
  induction x with
  | nil => intro a b; rfl
  | cons c x' ih =>
    intro a b
    simp [pyStrLe, lt_irrefl, ih a b]

/-- Helper: joining two names onto the same folder preserves their order. -/
theorem pyStrLe_pathJoin (d a b : PyStr) :
    pyStrLe (pathJoin d a) (pathJoin d b) = pyStrLe a b := by
  have h1 : pathJoin d a = (d ++ ['/']) ++ a := by simp [pathJoin]
  have h2 : pathJoin d b = (d ++ ['/']) ++ b := by simp [pathJoin]
  rw [h1, h2, pyStrLe_append]

/-- C6: source selection returns exactly the listing entries that end with
the recognized extension case-insensitively, each joined with the input
folder, in ascending sorted filename order; on a listing holding a.docx,
b.docx and notes.txt it selects the two docx files in order and ignores the
text file. -/
theorem shell_source_selection (listing : List PyStr) (dir : PyStr) :
    (∀ f, f ∈ selectSources listing dir ↔
      ∃ n, n ∈ listing ∧ pyEndsWith (pyLower n) dotDocx = true ∧ f = pathJoin dir n) ∧
    (selectSources listing dir).Pairwise (fun a b => pyStrLe a b = true) ∧
    selectSources ["notes.txt".data, "b.docx".data, "a.docx".data] "in".data =
      [pathJoin "in".data "a.docx".data, pathJoin "in".data "b.docx".data] := by
  refine ⟨?_, ?_, ?_⟩
  · intro f
    simp only [selectSources, List.mem_map, List.mem_filter, List.mem_mergeSort]
    constructor
    · rintro ⟨n, ⟨hn, he⟩, rfl⟩
      exact ⟨n, hn, he, rfl⟩
    · rintro ⟨n, hn, he, rfl⟩
      exact ⟨n, ⟨hn, he⟩, rfl⟩
  · have hsorted : (listing.mergeSort pyStrLe).Pairwise (fun a b => pyStrLe a b = true) :=
      List.sorted_mergeSort (fun a b c => pyStrLe_trans a b c)
        (fun a b => pyStrLe_total a b) listing
    have hfilter : ((listing.mergeSort pyStrLe).filter fun n =>
        pyEndsWith (pyLower n) dotDocx).Pairwise (fun a b => pyStrLe a b = true) :=
      List.Pairwise.sublist (List.filter_sublist _) hsorted
    rw [selectSources, List.pairwise_map]
    exact hfilter.imp fun h => by rw [pyStrLe_pathJoin]; exact h
  · have hanti : IsAntisymm PyStr (fun a b => pyStrLe a b = true) := ⟨pyStrLe_antisymm⟩
    have hms : ["notes.txt".data, "b.docx".data, "a.docx".data].mergeSort pyStrLe =
        ["a.docx".data, "b.docx".data, "notes.txt".data] := by
      have hperm : List.Perm
          (["notes.txt".data, "b.docx".data, "a.docx".data].mergeSort pyStrLe)
          ["a.docx".data, "b.docx".data, "notes.txt".data] :=
        (List.mergeSort_perm _ _).trans (by decide)
      have hs1 : List.Pairwise (fun a b => pyStrLe a b = true)
          (["notes.txt".data, "b.docx".data, "a.docx".data].mergeSort pyStrLe) :=
        List.sorted_mergeSort (fun a b c => pyStrLe_trans a b c)
          (fun a b => pyStrLe_total a b) _
      have hs2 : List.Pairwise (fun a b => pyStrLe a b = true)
          ["a.docx".data, "b.docx".data, "notes.txt".data] := by decide
      exact List.eq_of_perm_of_sorted hperm hs1 hs2
    rw [selectSources, hms]
    decide

/-- Witness for C6 at the scenario listing of the specification. -/
theorem shell_source_selection_witness :
    selectSources ["notes.txt".data, "b.docx".data, "a.docx".data] "in".data =
      [pathJoin "in".data "a.docx".data, pathJoin "in".data "b.docx".data] :=
  (shell_source_selection [] []).2.2

/-- C7: with an existing input folder but an output folder that neither
exists nor can be created, the Shell reports the directory-creation error
dialog and never invokes the merge engine. -/
theorem shell_output_dir_failure (os : OSState) (input_path output_path fname : PyStr)
    (hin : input_path ∈ os.dirs) (h1 : output_path ∉ os.dirs)
    (h2 : output_path ∉ os.creatable) :
    start_merge_process os input_path output_path fname =
      ShellOutcome.mk (Dialog.error "错误".data
        ("无法创建输出文件夹：\n".data ++ output_path)) false none := by
  simp [start_merge_process, hin, h1, h2]

/-- Witness operating-system state for the Shell claims: the input folder
exists and holds one document; no output folder exists or is creatable. -/
def wos : OSState :=
  OSState.mk wfs ["in".data] [] [("in".data, ["a.docx".data])]

/-- Witness for C7 at a concrete state. -/
theorem shell_output_dir_failure_witness :
    start_merge_process wos "in".data "out".data "merged".data =
      ShellOutcome.mk (Dialog.error "错误".data
        ("无法创建输出文件夹：\n".data ++ "out".data)) false none :=
  shell_output_dir_failure wos "in".data "out".data "merged".data
    (by decide) (by decide) (by decide)

/-- Helper: the success marker sits at the front of every success message. -/
theorem success_marker_in_successMsg (n : Nat) (t : PyStr) :
    "成功".data <:+: successMsg n t := by
  have h0 : "成功".data <+: "成功：".data := by decide
  have h1 := h0.trans (List.prefix_append "成功：".data (toString n).data)
  have h2 := h1.trans (List.prefix_append ("成功：".data ++ (toString n).data)
    " 个文档已合并到\n".data)
  have h3 := h2.trans (List.prefix_append
    ("成功：".data ++ (toString n).data ++ " 个文档已合并到\n".data) t)
  exact h3.isInfix

/-- C8: a successful merge returns the success message, which contains the
count of merged files and the destination path; the outcome carries the
resolved target path, and the Shell classifies that message into the
informational success dialog. -/
theorem merge_success_reporting (fs : DocFS) (sources : List PyStr) (target : PyStr)
    (dmap : PyStr → Doc) (hne : sources ≠ [])
    (hopen : ∀ p ∈ sources, openDoc fs p = some (dmap p)) :
    (merge_docx_files fs sources target).message = successMsg sources.length target ∧
    (toString sources.length).data <:+: successMsg sources.length target ∧
    target <:+: successMsg sources.length target ∧
    dialogFor (successMsg sources.length target) =
      Dialog.info "合并完成".data (successMsg sources.length target) ∧
    (merge_docx_files fs sources target).written =
      some (target, specMerge (sources.map dmap)) := by
  refine ⟨?_, ?_, ?_, ?_, ?_⟩
  · exact (merge_concat_core fs sources target dmap hne hopen).2
  · exact ⟨"成功：".data, " 个文档已合并到\n".data ++ target,
      by simp [successMsg, List.append_assoc]⟩
  · exact (List.suffix_append
      ("成功：".data ++ (toString sources.length).data ++ " 个文档已合并到\n".data)
      target).isInfix
  · rw [dialogFor, if_pos (success_marker_in_successMsg sources.length target)]
  · exact (merge_concat_core fs sources target dmap hne hopen).1

/-- Witness for C8 at a concrete two-document merge. -/
theorem merge_success_reporting_witness :
    (merge_docx_files wfs ["a.docx".data, "b.docx".data] "t.docx".data).message =
      successMsg 2 "t.docx".data ∧
    dialogFor (successMsg 2 "t.docx".data) =
      Dialog.info "合并完成".data (successMsg 2 "t.docx".data) :=
  ⟨(merge_success_reporting wfs ["a.docx".data, "b.docx".data] "t.docx".data wdmap
      (by decide) (by decide)).1,
   (merge_success_reporting wfs ["a.docx".data, "b.docx".data] "t.docx".data wdmap
      (by decide) (by decide)).2.2.2.1⟩

/-- C9: the Shell classifies an outcome as success exactly when the message
contains the substring 成功; consequently a failing merge whose diagnostic
contains 成功 (here an unreadable source path naming 成功) is displayed in
the success dialog even though nothing was written. -/
theorem shell_success_classification :
    (∀ msg : PyStr,
      ("成功".data <:+: msg → dialogFor msg = Dialog.info "合并完成".data msg) ∧
      (¬ "成功".data <:+: msg → dialogFor msg = Dialog.error "合并失败".data msg)) ∧
    ((merge_docx_files [] ["合并成功.docx".data] "t.docx".data).written = none ∧
      "成功".data <:+:
        (merge_docx_files [] ["合并成功.docx".data] "t.docx".data).message ∧
      dialogFor (merge_docx_files [] ["合并成功.docx".data] "t.docx".data).message =
        Dialog.info "合并完成".data
          (merge_docx_files [] ["合并成功.docx".data] "t.docx".data).message) := by
  refine ⟨fun msg => ⟨fun h => ?_, fun h => ?_⟩, rfl, by decide, by decide⟩
  · rw [dialogFor, if_pos h]
  · rw [dialogFor, if_neg h]

/-- Witness for C9: instantiating the classification at a concrete failure
message that contains the success marker. -/
theorem shell_success_classification_witness :
    dialogFor (mergeErrMsg (openErr "合并成功.docx".data)) =
      Dialog.info "合并完成".data (mergeErrMsg (openErr "合并成功.docx".data)) :=
  (shell_success_classification.1 (mergeErrMsg (openErr "合并成功.docx".data))).1
    (by decide)

end DocxMerger
